import Mathlib

/-!
Shallow embedding of the gobotlcd HD44780 LCD driver (src/liquidcrystallcd.go).

The driver talks to the display through a single I2C byte register.  We model
the I2C connection as a sink `Nat → Option String`: `k n` is the outcome of the
n-th `WriteByte` call on this connection (`none` = success, `some msg` = the
error that call returns).  The driver state `St` carries the Go struct fields
(`displFn`, `displCntrl`, `displMode`, `cols`, `rows`, `backLight`) plus the
number of bus writes attempted so far and the trace of the bytes passed to
`WriteByte`, in order.  Time.Sleep calls carry no observable data and are not
modelled.  Go `byte` arithmetic is modelled on `Nat` with explicit `% 256`
where the Go code can wrap (`-1` as `bsub1`, addition in `SetCursor`, and the
value handed to the bus).
-/

namespace GobotLCD

/-- Outcome of the n-th WriteByte call on the I2C connection. -/
abbrev Sink := Nat → Option String

-- command modes (constants from the source)
def lcdClearDisplay : Nat := 0x01
def lcdReturnHome : Nat := 0x02
def lcdEntryModeSet : Nat := 0x04
def lcdDisplayControl : Nat := 0x08
def lcdCursorShift : Nat := 0x10
def lcdFunctionSet : Nat := 0x20
def lcdSetCGramAddr : Nat := 0x40
def lcdSetDDRAMAddr : Nat := 0x80

-- flags for display entry mode
def lcdEntryLeft : Nat := 0x02
def lcdEntryShiftIncrement : Nat := 0x01
def lcdEntryShiftDecrement : Nat := 0x00

-- flags for display on/off control
def lcdDisplayOn : Nat := 0x04
def lcdCursorOn : Nat := 0x02
def lcdCursorOff : Nat := 0x00
def lcdBlinkOn : Nat := 0x01
def lcdBlinkOff : Nat := 0x00

-- flags for display/cursor shift
def lcdDisplayMove : Nat := 0x08
def lcdMoveRight : Nat := 0x04
def lcdMoveLeft : Nat := 0x00

-- flags for function set
def lcd8BitMode : Nat := 0x10
def lcd4BitMode : Nat := 0x00
def lcd2Line : Nat := 0x08
def lcd1Line : Nat := 0x00
def lcd5x10Dots : Nat := 0x04
def lcd5x8Dots : Nat := 0x00

-- flags for backlight control
def lcdBacklight : Nat := 0x08
def lcdNoBacklight : Nat := 0x00

/-- Enable bit. -/
def en : Nat := 0x04
/-- Register select bit. -/
def rs : Nat := 0x01

/-- DotSize values (Go `DotSize` is a byte-typed enum). -/
def DotSize5x10 : Nat := lcd5x10Dots
def DotSize5x8 : Nat := lcd5x8Dots

/-- Go byte complement `^b` for `b < 256`. -/
def bnot (b : Nat) : Nat := 0xFF ^^^ b

/-- Go byte subtraction `n - 1` (wraps at 0, for `n < 256`). -/
def bsub1 (n : Nat) : Nat := (n + 255) % 256

/-- The fields of the `LiquidCrystalLCD` Go struct that carry protocol state,
plus the observable bus history: `writeCount` is the number of `WriteByte`
calls attempted so far and `trace` the list of bytes handed to `WriteByte`. -/
structure St where
  displFn : Nat
  displCntrl : Nat
  displMode : Nat
  cols : Nat
  rows : Nat
  backLight : Nat
  writeCount : Nat
  trace : List Nat
deriving DecidableEq

/-- `CustomCharacter` from the source: the 8-byte bitmap and the register
(code point) assigned on registration.  The Go field is a `[8]byte` array,
modelled as a list of length 8. -/
structure CustomCharacter where
  CharMap : List Nat
  Register : Nat
deriving DecidableEq

/-- `NewLiquidCrystalLCD`: builds the initial driver state from the
construction parameters (connector/config glue not modelled). -/
def NewLiquidCrystalLCD (cols rows dotSize : Nat) : St :=
  let fn0 := lcd4BitMode ||| lcd1Line ||| lcd5x8Dots
  let fn1 := if 1 < rows then fn0 ||| lcd2Line else fn0
  let fn2 := if dotSize ≠ DotSize5x8 ∧ rows = 1 then fn1 ||| lcd5x10Dots else fn1
  { displFn := fn2, displCntrl := 0, displMode := 0, cols := cols, rows := rows,
    backLight := lcdNoBacklight, writeCount := 0, trace := [] }

/-- `lcd.write(val)`: one `connection.WriteByte(val)` call.  The result is
whatever the sink reports for this write index; the byte is recorded in the
trace (Go hands a `byte`, hence the `% 256`). -/
def write (k : Sink) (val : Nat) (s : St) : Option String × St :=
  (k s.writeCount,
   { s with writeCount := s.writeCount + 1, trace := s.trace ++ [val % 256] })

/-- `lcd.expandWrite(val)`: write `val | lcd.backLight`. -/
def expandWrite (k : Sink) (val : Nat) (s : St) : Option String × St :=
  write k (val ||| s.backLight) s

/-- `lcd.pulseEnable(val)`: write `val | en`, then `val & ^en` (sleeps not
modelled). -/
def pulseEnable (k : Sink) (val : Nat) (s : St) : Option String × St :=
  match expandWrite k (val ||| en) s with
  | (some m, s1) => (some m, s1)
  | (none, s1) => expandWrite k (val &&& bnot en) s1

/-- `lcd.write4bits(val)`: expandWrite then pulseEnable. -/
def write4bits (k : Sink) (val : Nat) (s : St) : Option String × St :=
  match expandWrite k val s with
  | (some m, s1) => (some m, s1)
  | (none, s1) => pulseEnable k val s1

/-- `lcd.send(val, mode)`: high nibble then low nibble, each via write4bits. -/
def send (k : Sink) (val mode : Nat) (s : St) : Option String × St :=
  let high := val &&& 0xF0
  let low := (val <<< 4) &&& 0xF0
  match write4bits k (high ||| mode) s with
  | (some m, s1) => (some m, s1)
  | (none, s1) => write4bits k (low ||| mode) s1

/-- `lcd.command(val)`: send with mode 0. -/
def command (k : Sink) (val : Nat) (s : St) : Option String × St :=
  send k val 0 s

/-- `lcd.Clear()`. -/
def Clear (k : Sink) (s : St) : Option String × St :=
  command k lcdClearDisplay s

/-- `lcd.Home()`. -/
def Home (k : Sink) (s : St) : Option String × St :=
  command k lcdReturnHome s

/-- `lcd.DisplayOn()`. -/
def DisplayOn (k : Sink) (s : St) : Option String × St :=
  let s' := { s with displCntrl := s.displCntrl ||| lcdDisplayOn }
  command k (lcdDisplayControl ||| s'.displCntrl) s'

/-- `lcd.DisplayOff()`. -/
def DisplayOff (k : Sink) (s : St) : Option String × St :=
  let s' := { s with displCntrl := s.displCntrl &&& bnot lcdDisplayOn }
  command k (lcdDisplayControl ||| s'.displCntrl) s'

/-- `lcd.BacklightOn()`. -/
def BacklightOn (k : Sink) (s : St) : Option String × St :=
  let s' := { s with backLight := lcdBacklight }
  expandWrite k 0 s'

/-- `lcd.BacklightOff()`. -/
def BacklightOff (k : Sink) (s : St) : Option String × St :=
  let s' := { s with backLight := lcdNoBacklight }
  expandWrite k 0 s'

/-- `lcd.UnderlineOn()`. -/
def UnderlineOn (k : Sink) (s : St) : Option String × St :=
  let s' := { s with displCntrl := s.displCntrl ||| lcdCursorOn }
  command k (lcdDisplayControl ||| s'.displCntrl) s'

/-- `lcd.UnderlineOff()`. -/
def UnderlineOff (k : Sink) (s : St) : Option String × St :=
  let s' := { s with displCntrl := s.displCntrl &&& bnot lcdCursorOn }
  command k (lcdDisplayControl ||| s'.displCntrl) s'

/-- `lcd.CursorOn()`. -/
def CursorOn (k : Sink) (s : St) : Option String × St :=
  let s' := { s with displCntrl := s.displCntrl ||| lcdBlinkOn }
  command k (lcdDisplayControl ||| s'.displCntrl) s'

/-- `lcd.CursorOff()`. -/
def CursorOff (k : Sink) (s : St) : Option String × St :=
  let s' := { s with displCntrl := s.displCntrl &&& bnot lcdBlinkOn }
  command k (lcdDisplayControl ||| s'.displCntrl) s'

/-- `lcd.ShiftDisplayLeft()`. -/
def ShiftDisplayLeft (k : Sink) (s : St) : Option String × St :=
  command k (lcdCursorShift ||| lcdDisplayMove ||| lcdMoveLeft) s

/-- `lcd.ShiftDisplayRight()`. -/
def ShiftDisplayRight (k : Sink) (s : St) : Option String × St :=
  command k (lcdCursorShift ||| lcdDisplayMove ||| lcdMoveRight) s

/-- `lcd.PrintLeftToRight()`. -/
def PrintLeftToRight (k : Sink) (s : St) : Option String × St :=
  let s' := { s with displMode := s.displMode ||| lcdEntryLeft }
  command k (lcdEntryModeSet ||| s'.displMode) s'

/-- `lcd.PrintRightToLeft()`. -/
def PrintRightToLeft (k : Sink) (s : St) : Option String × St :=
  let s' := { s with displMode := s.displMode &&& bnot lcdEntryLeft }
  command k (lcdEntryModeSet ||| s'.displMode) s'

/-- `lcd.AutoScrollOn()`. -/
def AutoScrollOn (k : Sink) (s : St) : Option String × St :=
  let s' := { s with displMode := s.displMode ||| lcdEntryShiftIncrement }
  command k (lcdEntryModeSet ||| s'.displMode) s'

/-- `lcd.AutoScrollOff()`. -/
def AutoScrollOff (k : Sink) (s : St) : Option String × St :=
  let s' := { s with displMode := s.displMode &&& bnot lcdEntryShiftIncrement }
  command k (lcdEntryModeSet ||| s'.displMode) s'

/-- Result of an operation that can also end in a runtime panic
(the out-of-range slice index in `SetCursor`). -/
inductive CResult where
  | ok
  | err (msg : String)
  | crash
deriving DecidableEq

/-- Coerces a plain fallible result into a `CResult`. -/
def cres : Option String × St → CResult × St
  | (none, s) => (CResult.ok, s)
  | (some m, s) => (CResult.err m, s)

/-- The row base-address table from `SetCursor`. -/
def rowOffset : List Nat := [0, 0x40, 0x14, 0x54]

/-- `lcd.SetCursor(col, row)`: byte-clamps `row` and `col` against
`rows-1` / `cols-1`, then indexes `rowOffset` (a panic when out of range)
and issues the SetDDRAMAddr command; the address addition is byte addition. -/
def SetCursor (k : Sink) (col row : Nat) (s : St) : CResult × St :=
  let row' := if bsub1 s.rows < row then bsub1 s.rows else row
  let col' := if bsub1 s.cols < col then bsub1 s.cols else col
  match rowOffset.get? row' with
  | none => (CResult.crash, s)
  | some off => cres (command k (lcdSetDDRAMAddr ||| ((col' + off) % 256)) s)

/-- The `for _, i := range charmap.CharMap` loop of `RegisterCharacter`:
send each bitmap byte in Data mode, stopping at the first failure. -/
def sendChars (k : Sink) (bs : List Nat) (s : St) : Option String × St :=
  match bs with
  | [] => (none, s)
  | b :: rest =>
    match send k b rs s with
    | (some m, s1) => (some m, s1)
    | (none, s1) => sendChars k rest s1

/-- `lcd.RegisterCharacter(location, charmap)`: mask the slot to 3 bits,
set the CGRAM address, send the bitmap bytes, and only then record the
register on the character. -/
def RegisterCharacter (k : Sink) (location : Nat) (charmap : CustomCharacter)
    (s : St) : Option String × CustomCharacter × St :=
  let location := location &&& 0x7
  match command k (lcdSetCGramAddr ||| (location <<< 3)) s with
  | (some m, s1) => (some m, charmap, s1)
  | (none, s1) =>
    match sendChars k charmap.CharMap s1 with
    | (some m, s2) => (some m, charmap, s2)
    | (none, s2) => (none, { charmap with Register := location }, s2)

/-- `lcd.Write(str)`: one Data-mode send per input byte, in order, returning
the count of bytes sent before the first failure. -/
def Write (k : Sink) (str : List Nat) (s : St) : (Nat × Option String) × St :=
  match str with
  | [] => ((0, none), s)
  | b :: rest =>
    match send k b rs s with
    | (some m, s1) => ((0, some m), s1)
    | (none, s1) =>
      match Write k rest s1 with
      | ((n, e), s2) => ((n + 1, e), s2)

/-- `lcd.init4BitMode()`: three 0x3-nibble forcing sends, then the 0x2
mode-commit send. -/
def init4BitMode (k : Sink) (s : St) : Option String × St :=
  match write4bits k (0x03 <<< 4) s with
  | (some m, s1) => (some m, s1)
  | (none, s1) =>
    match write4bits k (0x03 <<< 4) s1 with
    | (some m, s2) => (some m, s2)
    | (none, s2) =>
      match write4bits k (0x03 <<< 4) s2 with
      | (some m, s3) => (some m, s3)
      | (none, s3) => write4bits k (0x02 <<< 4) s3

/-- `lcd.init()`: `conn` is the outcome of `connector.GetConnection`
(`none` = acquired).  After acquiring, prime the expander with a raw
backlight write, run the 4-bit handshake, issue FunctionSet, set and issue
DisplayControl, clear, set and issue EntryMode, and go home. -/
def init (k : Sink) (conn : Option String) (s : St) : Option String × St :=
  match conn with
  | some m => (some m, s)
  | none =>
    match write k s.backLight s with
    | (some m, s1) => (some m, s1)
    | (none, s1) =>
      match init4BitMode k s1 with
      | (some m, s2) => (some m, s2)
      | (none, s2) =>
        match command k (lcdFunctionSet ||| s2.displFn) s2 with
        | (some m, s3) => (some m, s3)
        | (none, s3) =>
          let s3' := { s3 with
            displCntrl := lcdDisplayOn ||| lcdCursorOff ||| lcdBlinkOff }
          match DisplayOn k s3' with
          | (some m, s4) => (some m, s4)
          | (none, s4) =>
            match Clear k s4 with
            | (some m, s5) => (some m, s5)
            | (none, s5) =>
              let s5' := { s5 with
                displMode := lcdEntryLeft ||| lcdEntryShiftDecrement }
              match command k (lcdEntryModeSet ||| s5'.displMode) s5' with
              | (some m, s6) => (some m, s6)
              | (none, s6) => Home k s6

/-- `lcd.Start()`: runs `init`. -/
def Start (k : Sink) (conn : Option String) (s : St) : Option String × St :=
  init k conn s

/-- `lcd.Halt()`: runs Clear, BacklightOff, CursorOff, DisplayOff in order
regardless of failures, accumulating errors with the `gatherErrs` closure. -/
def Halt (k : Sink) (s : St) : Option String × St :=
  let gatherErrs : Option String → Option String → Option String := fun err e =>
    match e, err with
    | some e', some err' => some (err' ++ "\n" ++ e')
    | some e', none => some e'
    | none, _ => err
  let r1 := Clear k s
  let r2 := BacklightOff k r1.2
  let r3 := CursorOff k r2.2
  let r4 := DisplayOff k r3.2
  (gatherErrs (gatherErrs (gatherErrs (gatherErrs none r1.1) r2.1) r3.1) r4.1,
   r4.2)

/-! ## Specification-side trace descriptions -/

/-- The three bus bytes of one `write4bits` nibble send of value `v` with
backlight `bl`: the value, the value with the enable bit raised, and the
value with the enable bit cleared — each OR-ed with the backlight bit. -/
def w4T (v bl : Nat) : List Nat :=
  [(v ||| bl) % 256, ((v ||| en) ||| bl) % 256, ((v &&& bnot en) ||| bl) % 256]

/-- The six bus bytes of one `send val mode`: nibble send of
`(val & 0xF0) | mode` then nibble send of `((val << 4) & 0xF0) | mode`. -/
def sendT (val mode bl : Nat) : List Nat :=
  w4T ((val &&& 0xF0) ||| mode) bl ++ w4T (((val <<< 4) &&& 0xF0) ||| mode) bl

/-- Bus bytes of a sequence of Data-mode sends, one per input byte. -/
def dataT (bs : List Nat) (bl : Nat) : List Nat :=
  match bs with
  | [] => []
  | b :: rest => sendT b rs bl ++ dataT rest bl

/-- The full bus trace of a successful `init`: raw backlight prime, the
three 0x3-nibble forcing sends, the 0x2 mode-commit send, then the
FunctionSet, DisplayControl, Clear, EntryMode and Home commands. -/
def initT (fn bl : Nat) : List Nat :=
  [bl % 256]
    ++ w4T 0x30 bl ++ w4T 0x30 bl ++ w4T 0x30 bl
    ++ w4T 0x20 bl
    ++ sendT (lcdFunctionSet ||| fn) 0 bl
    ++ sendT (lcdDisplayControl ||| (lcdDisplayOn ||| lcdCursorOff ||| lcdBlinkOff ||| lcdDisplayOn)) 0 bl
    ++ sendT lcdClearDisplay 0 bl
    ++ sendT (lcdEntryModeSet ||| (lcdEntryLeft ||| lcdEntryShiftDecrement)) 0 bl
    ++ sendT lcdReturnHome 0 bl

/-- Appending a run of attempted bus writes to a state. -/
def pushT (s : St) (t : List Nat) : St :=
  { s with writeCount := s.writeCount + t.length, trace := s.trace ++ t }

/-- `t` is an initial segment of `u`. -/
def PrefixOf (t u : List Nat) : Prop := ∃ r, t ++ r = u

/-! ## Basic lemmas about `pushT` and `PrefixOf` -/

theorem pushT_backLight (s : St) (t : List Nat) :
    (pushT s t).backLight = s.backLight := rfl

theorem pushT_trace (s : St) (t : List Nat) :
    (pushT s t).trace = s.trace ++ t := rfl

theorem pushT_nil (s : St) : pushT s [] = s := by
  simp [pushT]

theorem pushT_pushT (s : St) (t u : List Nat) :
    pushT (pushT s t) u = pushT s (t ++ u) := by
  simp [pushT, Nat.add_assoc]

theorem prefixOf_self (t : List Nat) : PrefixOf t t := ⟨[], by simp⟩

theorem PrefixOf.extend {t u : List Nat} (v : List Nat) (h : PrefixOf t u) :
    PrefixOf t (u ++ v) := by
  obtain ⟨r, hr⟩ := h
  exact ⟨r ++ v, by rw [← List.append_assoc, hr]⟩

theorem PrefixOf.cons_left {t u : List Nat} (v : List Nat) (h : PrefixOf t u) :
    PrefixOf (v ++ t) (v ++ u) := by
  obtain ⟨r, hr⟩ := h
  exact ⟨r, by rw [List.append_assoc, hr]⟩

/-! ## The backlight bit is OR-ed into every bus byte -/

/-- Key bit fact: a byte of the form `(x ||| bl) % 256` absorbs `bl % 256`. -/
theorem orBL (x bl : Nat) : ((x ||| bl) % 256) ||| (bl % 256) = (x ||| bl) % 256 := by
  have h : (256 : Nat) = 2 ^ 8 := by norm_num
  apply Nat.eq_of_testBit_eq
  intro i
  rw [h]
  simp only [Nat.testBit_or, Nat.testBit_mod_two_pow]
  cases hx : Nat.testBit x i <;> cases hb : Nat.testBit bl i <;>
    cases hi : decide (i < 8) <;> simp

/-- Every byte of `t` has the backlight bits of `bl` set. -/
def blOK (bl : Nat) (t : List Nat) : Prop :=
  ∀ b ∈ t, b ||| bl % 256 = b

theorem blOK_nil (bl : Nat) : blOK bl [] := by
  intro b hb
  cases hb

theorem blOK_append {bl : Nat} {t u : List Nat} (ht : blOK bl t) (hu : blOK bl u) :
    blOK bl (t ++ u) := by
  intro b hb
  rcases List.mem_append.1 hb with h | h
  · exact ht b h
  · exact hu b h

theorem blOK_ofPre {bl : Nat} {t u : List Nat} (h : PrefixOf t u) (hu : blOK bl u) :
    blOK bl t := by
  obtain ⟨r, hr⟩ := h
  intro b hb
  exact hu b (hr ▸ List.mem_append.2 (Or.inl hb))

theorem blOK_w4T (v bl : Nat) : blOK bl (w4T v bl) := by
  intro b hb
  simp only [w4T, List.mem_cons, List.not_mem_nil, or_false] at hb
  rcases hb with h | h | h <;> (subst h; exact orBL _ bl)

theorem blOK_sendT (v m bl : Nat) : blOK bl (sendT v m bl) :=
  blOK_append (blOK_w4T _ _) (blOK_w4T _ _)

theorem blOK_dataT (bs : List Nat) (bl : Nat) : blOK bl (dataT bs bl) := by
  induction bs with
  | nil => exact blOK_nil bl
  | cons b rest ih => exact blOK_append (blOK_sendT _ _ _) ih

theorem blOK_initT (fn bl : Nat) : blOK bl (initT fn bl) := by
  have hone : blOK bl [bl % 256] := by
    intro b hb
    simp only [List.mem_singleton] at hb
    subst hb
    exact Nat.mod_mod_of_dvd bl dvd_rfl ▸ Nat.or_self _
  unfold initT
  exact blOK_append (blOK_append (blOK_append (blOK_append (blOK_append
    (blOK_append (blOK_append (blOK_append (blOK_append hone
      (blOK_w4T _ _)) (blOK_w4T _ _)) (blOK_w4T _ _)) (blOK_w4T _ _))
      (blOK_sendT _ _ _)) (blOK_sendT _ _ _)) (blOK_sendT _ _ _))
      (blOK_sendT _ _ _)) (blOK_sendT _ _ _)

/-! ## Frame lemmas: what each transport routine does to the state -/

theorem write_eq (k : Sink) (v : Nat) (s : St) :
    write k v s = (k s.writeCount, pushT s [v % 256]) := rfl

theorem expandWrite_eq (k : Sink) (v : Nat) (s : St) :
    expandWrite k v s = (k s.writeCount, pushT s [(v ||| s.backLight) % 256]) := rfl

/-- Any run of `write4bits` extends the trace by a prefix of the three-byte
nibble-send pattern `w4T`, the full pattern exactly when it succeeds. -/
theorem write4bits_frame (k : Sink) (v : Nat) (s : St) :
    ∃ t, PrefixOf t (w4T v s.backLight) ∧ (write4bits k v s).2 = pushT s t ∧
      ((write4bits k v s).1 = none → t = w4T v s.backLight) := by
  unfold write4bits
  split
  case h_1 m s1 heq =>
    rw [expandWrite_eq] at heq
    injection heq with hk hs
    exact ⟨[(v ||| s.backLight) % 256], ⟨[_, _], rfl⟩, by simp [← hs], by simp⟩
  case h_2 s1 heq =>
    rw [expandWrite_eq] at heq
    injection heq with hk hs
    unfold pulseEnable
    split
    case h_1 m s2 heq2 =>
      rw [expandWrite_eq] at heq2
      injection heq2 with hk2 hs2
      refine ⟨[(v ||| s.backLight) % 256, ((v ||| en) ||| s.backLight) % 256],
        ⟨[_], rfl⟩, ?_, by simp⟩
      rw [← hs2, ← hs, pushT_backLight, pushT_pushT]
      simp
    case h_2 s2 heq2 =>
      rw [expandWrite_eq] at heq2
      injection heq2 with hk2 hs2
      rw [expandWrite_eq]
      refine ⟨w4T v s.backLight, ⟨[], by simp⟩, ?_, fun _ => rfl⟩
      simp only [← hs2, ← hs, pushT_backLight, pushT_pushT, pushT_trace]
      rfl

theorem write4bits_ok {k : Sink} {v : Nat} {s : St}
    (h : (write4bits k v s).1 = none) :
    (write4bits k v s).2 = pushT s (w4T v s.backLight) := by
  obtain ⟨t, _, hs, hok⟩ := write4bits_frame k v s
  rw [hs, hok h]

/-- Any run of `send` extends the trace by a prefix of the six-byte
two-nibble pattern `sendT`, the full pattern exactly when it succeeds. -/
theorem send_frame (k : Sink) (v m : Nat) (s : St) :
    ∃ t, PrefixOf t (sendT v m s.backLight) ∧ (send k v m s).2 = pushT s t ∧
      ((send k v m s).1 = none → t = sendT v m s.backLight) := by
  unfold send
  dsimp only
  split
  case h_1 e s1 heq =>
    obtain ⟨t, hpre, hs, _⟩ := write4bits_frame k ((v &&& 0xF0) ||| m) s
    rw [heq] at hs
    exact ⟨t, hpre.extend _, hs, by simp⟩
  case h_2 s1 heq =>
    have h1 : (write4bits k ((v &&& 0xF0) ||| m) s).1 = none := by rw [heq]
    have hs1 : s1 = pushT s (w4T ((v &&& 0xF0) ||| m) s.backLight) := by
      have := write4bits_ok h1
      rw [heq] at this
      exact this
    obtain ⟨t2, hpre2, hs2, hok2⟩ := write4bits_frame k (((v <<< 4) &&& 0xF0) ||| m) s1
    refine ⟨w4T ((v &&& 0xF0) ||| m) s.backLight ++ t2, ?_, ?_, ?_⟩
    · exact PrefixOf.cons_left _ (by rw [hs1, pushT_backLight] at hpre2; exact hpre2)
    · rw [hs2, hs1, pushT_pushT]
    · intro h2
      rw [hok2 h2, hs1, pushT_backLight]
      exact rfl

theorem send_ok {k : Sink} {v m : Nat} {s : St}
    (h : (send k v m s).1 = none) :
    (send k v m s).2 = pushT s (sendT v m s.backLight) := by
  obtain ⟨t, _, hs, hok⟩ := send_frame k v m s
  rw [hs, hok h]

theorem command_ok {k : Sink} {v : Nat} {s : St}
    (h : (command k v s).1 = none) :
    (command k v s).2 = pushT s (sendT v 0 s.backLight) :=
  send_ok h

/-! ## Backlight bookkeeping across operations -/

/-- From `s` to `s'` the run only appended bus bytes that carry the backlight
bit of the final state. -/
def WritesBL (s s' : St) : Prop :=
  ∃ t, s'.trace = s.trace ++ t ∧ blOK s'.backLight t

/-- `WritesBL` plus: the stored backlight bit did not change. -/
def KeepsBL (s s' : St) : Prop :=
  WritesBL s s' ∧ s'.backLight = s.backLight

theorem keepsBL_self (s : St) : KeepsBL s s :=
  ⟨⟨[], by simp, blOK_nil _⟩, rfl⟩

theorem KeepsBL.trans {s1 s2 s3 : St} (h12 : KeepsBL s1 s2)
    (h23 : KeepsBL s2 s3) : KeepsBL s1 s3 := by
  obtain ⟨⟨t, ht, hb⟩, hbl⟩ := h12
  obtain ⟨⟨u, hu, hub⟩, hbl2⟩ := h23
  refine ⟨⟨t ++ u, by rw [hu, ht, List.append_assoc], blOK_append ?_ hub⟩,
    hbl2.trans hbl⟩
  rwa [hbl2]

theorem keepsBL_pushT {s : St} {t : List Nat} (h : blOK s.backLight t) :
    KeepsBL s (pushT s t) :=
  ⟨⟨t, pushT_trace s t, by rw [pushT_backLight]; exact h⟩, pushT_backLight s t⟩

theorem keepsBL_of_same {s s' : St} (htrace : s'.trace = s.trace)
    (hbl : s'.backLight = s.backLight) : KeepsBL s s' :=
  ⟨⟨[], by simp [htrace], blOK_nil _⟩, hbl⟩

theorem send_keeps (k : Sink) (v m : Nat) (s : St) :
    KeepsBL s (send k v m s).2 := by
  obtain ⟨t, hpre, hs, _⟩ := send_frame k v m s
  rw [hs]
  exact keepsBL_pushT (blOK_ofPre hpre (blOK_sendT v m s.backLight))

theorem command_keeps (k : Sink) (v : Nat) (s : St) :
    KeepsBL s (command k v s).2 :=
  send_keeps k v 0 s

theorem Clear_keeps (k : Sink) (s : St) : KeepsBL s (Clear k s).2 :=
  command_keeps k lcdClearDisplay s

theorem Home_keeps (k : Sink) (s : St) : KeepsBL s (Home k s).2 :=
  command_keeps k lcdReturnHome s

theorem DisplayOn_keeps (k : Sink) (s : St) : KeepsBL s (DisplayOn k s).2 := by
  unfold DisplayOn
  exact (keepsBL_of_same rfl rfl).trans (command_keeps k _ _)

theorem DisplayOff_keeps (k : Sink) (s : St) : KeepsBL s (DisplayOff k s).2 := by
  unfold DisplayOff
  exact (keepsBL_of_same rfl rfl).trans (command_keeps k _ _)

theorem UnderlineOn_keeps (k : Sink) (s : St) : KeepsBL s (UnderlineOn k s).2 := by
  unfold UnderlineOn
  exact (keepsBL_of_same rfl rfl).trans (command_keeps k _ _)

theorem UnderlineOff_keeps (k : Sink) (s : St) : KeepsBL s (UnderlineOff k s).2 := by
  unfold UnderlineOff
  exact (keepsBL_of_same rfl rfl).trans (command_keeps k _ _)

theorem CursorOn_keeps (k : Sink) (s : St) : KeepsBL s (CursorOn k s).2 := by
  unfold CursorOn
  exact (keepsBL_of_same rfl rfl).trans (command_keeps k _ _)

theorem CursorOff_keeps (k : Sink) (s : St) : KeepsBL s (CursorOff k s).2 := by
  unfold CursorOff
  exact (keepsBL_of_same rfl rfl).trans (command_keeps k _ _)

theorem ShiftDisplayLeft_keeps (k : Sink) (s : St) :
    KeepsBL s (ShiftDisplayLeft k s).2 :=
  command_keeps k _ s

theorem ShiftDisplayRight_keeps (k : Sink) (s : St) :
    KeepsBL s (ShiftDisplayRight k s).2 :=
  command_keeps k _ s

theorem PrintLeftToRight_keeps (k : Sink) (s : St) :
    KeepsBL s (PrintLeftToRight k s).2 := by
  unfold PrintLeftToRight
  exact (keepsBL_of_same rfl rfl).trans (command_keeps k _ _)

theorem PrintRightToLeft_keeps (k : Sink) (s : St) :
    KeepsBL s (PrintRightToLeft k s).2 := by
  unfold PrintRightToLeft
  exact (keepsBL_of_same rfl rfl).trans (command_keeps k _ _)

theorem AutoScrollOn_keeps (k : Sink) (s : St) :
    KeepsBL s (AutoScrollOn k s).2 := by
  unfold AutoScrollOn
  exact (keepsBL_of_same rfl rfl).trans (command_keeps k _ _)

theorem AutoScrollOff_keeps (k : Sink) (s : St) :
    KeepsBL s (AutoScrollOff k s).2 := by
  unfold AutoScrollOff
  exact (keepsBL_of_same rfl rfl).trans (command_keeps k _ _)

theorem cres_snd (r : Option String × St) : (cres r).2 = r.2 := by
  rcases r with ⟨_ | m, st⟩ <;> rfl

theorem SetCursor_keeps (k : Sink) (col row : Nat) (s : St) :
    KeepsBL s (SetCursor k col row s).2 := by
  unfold SetCursor
  dsimp only
  split
  · exact keepsBL_self s
  · rw [cres_snd]
    exact command_keeps k _ s

theorem Write_keeps (k : Sink) (str : List Nat) (s : St) :
    KeepsBL s (Write k str s).2 := by
  induction str generalizing s with
  | nil => exact keepsBL_self s
  | cons b rest ih =>
    unfold Write
    split
    case h_1 m s1 heq =>
      have := send_keeps k b rs s
      rw [heq] at this
      exact this
    case h_2 s1 heq =>
      have h1 : KeepsBL s s1 := by
        have := send_keeps k b rs s
        rwa [heq] at this
      have h2 := ih s1
      rcases heq2 : Write k rest s1 with ⟨⟨n, e⟩, s2⟩
      rw [heq2] at h2
      exact h1.trans h2

theorem sendChars_keeps (k : Sink) (bs : List Nat) (s : St) :
    KeepsBL s (sendChars k bs s).2 := by
  induction bs generalizing s with
  | nil => exact keepsBL_self s
  | cons b rest ih =>
    unfold sendChars
    split
    case h_1 m s1 heq =>
      have := send_keeps k b rs s
      rw [heq] at this
      exact this
    case h_2 s1 heq =>
      have h1 : KeepsBL s s1 := by
        have := send_keeps k b rs s
        rwa [heq] at this
      exact h1.trans (ih s1)

theorem RegisterCharacter_keeps (k : Sink) (location : Nat)
    (charmap : CustomCharacter) (s : St) :
    KeepsBL s (RegisterCharacter k location charmap s).2.2 := by
  unfold RegisterCharacter
  dsimp only
  split
  case h_1 m s1 heq =>
    have := command_keeps k (lcdSetCGramAddr ||| ((location &&& 0x7) <<< 3)) s
    rw [heq] at this
    exact this
  case h_2 s1 heq =>
    have h1 : KeepsBL s s1 := by
      have := command_keeps k (lcdSetCGramAddr ||| ((location &&& 0x7) <<< 3)) s
      rwa [heq] at this
    split
    case h_1 m s2 heq2 =>
      have h2 : KeepsBL s1 s2 := by
        have := sendChars_keeps k charmap.CharMap s1
        rwa [heq2] at this
      exact h1.trans h2
    case h_2 s2 heq2 =>
      have h2 : KeepsBL s1 s2 := by
        have := sendChars_keeps k charmap.CharMap s1
        rwa [heq2] at this
      exact h1.trans h2

theorem init4BitMode_keeps (k : Sink) (s : St) :
    KeepsBL s (init4BitMode k s).2 := by
  unfold init4BitMode
  have w4keeps : ∀ (v : Nat) (u : St), KeepsBL u (write4bits k v u).2 := by
    intro v u
    obtain ⟨t, hpre, hs, _⟩ := write4bits_frame k v u
    rw [hs]
    exact keepsBL_pushT (blOK_ofPre hpre (blOK_w4T v u.backLight))
  split
  case h_1 m s1 heq =>
    have := w4keeps (0x03 <<< 4) s
    rw [heq] at this
    exact this
  case h_2 s1 heq =>
    have h1 : KeepsBL s s1 := by have := w4keeps (0x03 <<< 4) s; rwa [heq] at this
    split
    case h_1 m s2 heq2 =>
      have := w4keeps (0x03 <<< 4) s1
      rw [heq2] at this
      exact h1.trans this
    case h_2 s2 heq2 =>
      have h2 : KeepsBL s1 s2 := by
        have := w4keeps (0x03 <<< 4) s1
        rwa [heq2] at this
      split
      case h_1 m s3 heq3 =>
        have := w4keeps (0x03 <<< 4) s2
        rw [heq3] at this
        exact (h1.trans h2).trans this
      case h_2 s3 heq3 =>
        have h3 : KeepsBL s2 s3 := by
          have := w4keeps (0x03 <<< 4) s2
          rwa [heq3] at this
        exact ((h1.trans h2).trans h3).trans (w4keeps (0x02 <<< 4) s3)

theorem init_keeps (k : Sink) (conn : Option String) (s : St) :
    KeepsBL s (init k conn s).2 := by
  unfold init
  split
  case h_1 m => exact keepsBL_self s
  case h_2 =>
    have hw : KeepsBL s (write k s.backLight s).2 := by
      rw [write_eq]
      refine keepsBL_pushT ?_
      intro b hb
      simp only [List.mem_singleton] at hb
      subst hb
      exact Nat.mod_mod_of_dvd s.backLight dvd_rfl ▸ Nat.or_self _
    split
    case h_1 m s1 heq =>
      rw [heq] at hw
      exact hw
    case h_2 s1 heq =>
      rw [heq] at hw
      have h2 : KeepsBL s (init4BitMode k s1).2 := hw.trans (init4BitMode_keeps k s1)
      split
      case h_1 m s2 heq2 =>
        rw [heq2] at h2
        exact h2
      case h_2 s2 heq2 =>
        rw [heq2] at h2
        have h3 : KeepsBL s (command k (lcdFunctionSet ||| s2.displFn) s2).2 :=
          h2.trans (command_keeps k _ s2)
        split
        case h_1 m s3 heq3 =>
          rw [heq3] at h3
          exact h3
        case h_2 s3 heq3 =>
          rw [heq3] at h3
          have h4 : KeepsBL s (DisplayOn k { s3 with
              displCntrl := lcdDisplayOn ||| lcdCursorOff ||| lcdBlinkOff }).2 :=
            (h3.trans (keepsBL_of_same rfl rfl)).trans (DisplayOn_keeps k _)
          dsimp only
          split
          case h_1 m s4 heq4 =>
            rw [heq4] at h4
            exact h4
          case h_2 s4 heq4 =>
            rw [heq4] at h4
            have h5 : KeepsBL s (Clear k s4).2 := h4.trans (Clear_keeps k s4)
            split
            case h_1 m s5 heq5 =>
              rw [heq5] at h5
              exact h5
            case h_2 s5 heq5 =>
              rw [heq5] at h5
              have h6 : KeepsBL s (command k
                  (lcdEntryModeSet ||| (lcdEntryLeft ||| lcdEntryShiftDecrement))
                  { s5 with displMode := lcdEntryLeft ||| lcdEntryShiftDecrement }).2 :=
                (h5.trans (keepsBL_of_same rfl rfl)).trans (command_keeps k _ _)
              split
              case h_1 m s6 heq6 =>
                rw [heq6] at h6
                exact h6
              case h_2 s6 heq6 =>
                rw [heq6] at h6
                exact h6.trans (Home_keeps k s6)

theorem Start_keeps (k : Sink) (conn : Option String) (s : St) :
    KeepsBL s (Start k conn s).2 :=
  init_keeps k conn s

theorem BacklightOn_run (k : Sink) (s : St) :
    BacklightOn k s =
      (k s.writeCount,
       pushT { s with backLight := lcdBacklight } [(0 ||| lcdBacklight) % 256]) := rfl

theorem BacklightOff_run (k : Sink) (s : St) :
    BacklightOff k s =
      (k s.writeCount,
       pushT { s with backLight := lcdNoBacklight } [(0 ||| lcdNoBacklight) % 256]) := rfl

theorem BacklightOn_writes (k : Sink) (s : St) :
    WritesBL s (BacklightOn k s).2 ∧ (BacklightOn k s).2.backLight = lcdBacklight := by
  rw [BacklightOn_run]
  refine ⟨⟨[(0 ||| lcdBacklight) % 256], by simp [pushT_trace], ?_⟩, rfl⟩
  intro b hb
  simp only [List.mem_singleton] at hb
  subst hb
  exact orBL 0 lcdBacklight

theorem BacklightOff_writes (k : Sink) (s : St) :
    WritesBL s (BacklightOff k s).2 ∧ (BacklightOff k s).2.backLight = lcdNoBacklight := by
  rw [BacklightOff_run]
  refine ⟨⟨[(0 ||| lcdNoBacklight) % 256], by simp [pushT_trace], ?_⟩, rfl⟩
  intro b hb
  simp only [List.mem_singleton] at hb
  subst hb
  exact orBL 0 lcdNoBacklight

/-- Boolean form of the backlight invariant for one operation: every byte the
operation appended to the trace absorbs the (final) backlight bit. -/
def blWritesB (s s' : St) : Bool :=
  (s'.trace.drop s.trace.length).all (fun b => (b ||| s'.backLight % 256) == b)

theorem writesBL_blWritesB {s s' : St} (h : WritesBL s s') :
    blWritesB s s' = true := by
  obtain ⟨t, ht, hb⟩ := h
  unfold blWritesB
  rw [ht, List.drop_left]
  exact List.all_eq_true.2 fun b hbm => beq_iff_eq.2 (hb b hbm)

/-! ## Success-path lemmas for the startup sequence -/

theorem pushT_displFn (s : St) (t : List Nat) : (pushT s t).displFn = s.displFn := rfl

theorem pushT_displCntrl (s : St) (t : List Nat) :
    (pushT s t).displCntrl = s.displCntrl := rfl

theorem pushT_displMode (s : St) (t : List Nat) :
    (pushT s t).displMode = s.displMode := rfl

theorem Clear_ok {k : Sink} {s : St} (h : (Clear k s).1 = none) :
    (Clear k s).2 = pushT s (sendT lcdClearDisplay 0 s.backLight) :=
  command_ok h

theorem Home_ok {k : Sink} {s : St} (h : (Home k s).1 = none) :
    (Home k s).2 = pushT s (sendT lcdReturnHome 0 s.backLight) :=
  command_ok h

theorem DisplayOn_ok {k : Sink} {s : St} (h : (DisplayOn k s).1 = none) :
    (DisplayOn k s).2 =
      pushT { s with displCntrl := s.displCntrl ||| lcdDisplayOn }
        (sendT (lcdDisplayControl ||| (s.displCntrl ||| lcdDisplayOn)) 0
          s.backLight) :=
  command_ok h

theorem init4BitMode_ok {k : Sink} {s : St} (h : (init4BitMode k s).1 = none) :
    (init4BitMode k s).2 =
      pushT s (w4T 0x30 s.backLight ++ (w4T 0x30 s.backLight ++
        (w4T 0x30 s.backLight ++ w4T 0x20 s.backLight))) := by
  have h30 : (0x03 <<< 4 : Nat) = 0x30 := by decide
  have h20 : (0x02 <<< 4 : Nat) = 0x20 := by decide
  revert h
  unfold init4BitMode
  split
  case h_1 m s1 heq =>
    intro h
    simp at h
  case h_2 s1 heq =>
    have h1 : (write4bits k (0x03 <<< 4) s).1 = none := by rw [heq]
    have hs1 : s1 = pushT s (w4T (0x03 <<< 4) s.backLight) := by
      have := write4bits_ok h1
      rwa [heq] at this
    split
    case h_1 m s2 heq2 =>
      intro h
      simp at h
    case h_2 s2 heq2 =>
      have h2 : (write4bits k (0x03 <<< 4) s1).1 = none := by rw [heq2]
      have hs2 : s2 = pushT s1 (w4T (0x03 <<< 4) s1.backLight) := by
        have := write4bits_ok h2
        rwa [heq2] at this
      split
      case h_1 m s3 heq3 =>
        intro h
        simp at h
      case h_2 s3 heq3 =>
        have h3 : (write4bits k (0x03 <<< 4) s2).1 = none := by rw [heq3]
        have hs3 : s3 = pushT s2 (w4T (0x03 <<< 4) s2.backLight) := by
          have := write4bits_ok h3
          rwa [heq3] at this
        intro h
        rw [write4bits_ok h, hs3, hs2, hs1]
        simp [pushT_pushT, pushT_backLight, h30, h20, List.append_assoc]

theorem init_ok {k : Sink} {conn : Option String} {s : St}
    (h : (init k conn s).1 = none) :
    (init k conn s).2 = { pushT s (initT s.displFn s.backLight) with
      displCntrl := lcdDisplayOn ||| lcdCursorOff ||| lcdBlinkOff ||| lcdDisplayOn,
      displMode := lcdEntryLeft ||| lcdEntryShiftDecrement } := by
  revert h
  unfold init
  split
  case h_1 m =>
    intro h
    simp at h
  case h_2 =>
    split
    case h_1 m s1 heq =>
      intro h
      simp at h
    case h_2 s1 heq =>
      rw [write_eq] at heq
      injection heq with hk1 hs1
      split
      case h_1 m s2 heq2 =>
        intro h
        simp at h
      case h_2 s2 heq2 =>
        have h2 : (init4BitMode k s1).1 = none := by rw [heq2]
        have hs2 : s2 = pushT s1 (w4T 0x30 s1.backLight ++ (w4T 0x30 s1.backLight ++
            (w4T 0x30 s1.backLight ++ w4T 0x20 s1.backLight))) := by
          have := init4BitMode_ok h2
          rwa [heq2] at this
        split
        case h_1 m s3 heq3 =>
          intro h
          simp at h
        case h_2 s3 heq3 =>
          have h3 : (command k (lcdFunctionSet ||| s2.displFn) s2).1 = none := by
            rw [heq3]
          have hs3 : s3 = pushT s2
              (sendT (lcdFunctionSet ||| s2.displFn) 0 s2.backLight) := by
            have := command_ok h3
            rwa [heq3] at this
          dsimp only
          split
          case h_1 m s4 heq4 =>
            intro h
            simp at h
          case h_2 s4 heq4 =>
            have h4 : (DisplayOn k { s3 with
                displCntrl := lcdDisplayOn ||| lcdCursorOff ||| lcdBlinkOff }).1
                = none := by rw [heq4]
            have hs4 : s4 = pushT { s3 with
                displCntrl := (lcdDisplayOn ||| lcdCursorOff ||| lcdBlinkOff) |||
                  lcdDisplayOn }
                (sendT (lcdDisplayControl |||
                  ((lcdDisplayOn ||| lcdCursorOff ||| lcdBlinkOff) ||| lcdDisplayOn))
                  0 s3.backLight) := by
              have := DisplayOn_ok h4
              rwa [heq4] at this
            split
            case h_1 m s5 heq5 =>
              intro h
              simp at h
            case h_2 s5 heq5 =>
              have h5 : (Clear k s4).1 = none := by rw [heq5]
              have hs5 : s5 = pushT s4 (sendT lcdClearDisplay 0 s4.backLight) := by
                have := Clear_ok h5
                rwa [heq5] at this

              split
              case h_1 m s6 heq6 =>
                intro h
                simp at h
              case h_2 s6 heq6 =>
                have h6 : (command k
                    (lcdEntryModeSet ||| (lcdEntryLeft ||| lcdEntryShiftDecrement))
                    { s5 with
                      displMode := lcdEntryLeft ||| lcdEntryShiftDecrement }).1
                    = none := by rw [heq6]
                have hs6 : s6 = pushT { s5 with
                    displMode := lcdEntryLeft ||| lcdEntryShiftDecrement }
                    (sendT (lcdEntryModeSet |||
                      (lcdEntryLeft ||| lcdEntryShiftDecrement)) 0 s5.backLight) := by
                  have := command_ok h6
                  rwa [heq6] at this
                intro h
                rw [Home_ok h, hs6, hs5, hs4, hs3, hs2, ← hs1]
                simp [pushT, initT, List.append_assoc, Nat.add_assoc]
                omega

theorem Start_ok {k : Sink} {conn : Option String} {s : St}
    (h : (Start k conn s).1 = none) :
    (Start k conn s).2 = { pushT s (initT s.displFn s.backLight) with
      displCntrl := lcdDisplayOn ||| lcdCursorOff ||| lcdBlinkOff ||| lcdDisplayOn,
      displMode := lcdEntryLeft ||| lcdEntryShiftDecrement } :=
  init_ok h

/-! ## Halt error aggregation, sendChars, SetCursor helpers -/

/-- Newline-join of all present error messages, in order (`none` when there
are none): the specification-side description of `gatherErrs` folding. -/
def combineErrs (es : List (Option String)) : Option String :=
  match es.filterMap id with
  | [] => none
  | m :: ms => some (ms.foldl (fun a b => a ++ "\n" ++ b) m)

theorem Halt_eq (k : Sink) (s : St) :
    Halt k s =
      (combineErrs [(Clear k s).1, (BacklightOff k (Clear k s).2).1,
        (CursorOff k (BacklightOff k (Clear k s).2).2).1,
        (DisplayOff k (CursorOff k (BacklightOff k (Clear k s).2).2).2).1],
       (DisplayOff k (CursorOff k (BacklightOff k (Clear k s).2).2).2).2) := by
  unfold Halt
  rcases h1 : Clear k s with ⟨e1, s1⟩
  rcases h2 : BacklightOff k s1 with ⟨e2, s2⟩
  rcases h3 : CursorOff k s2 with ⟨e3, s3⟩
  rcases h4 : DisplayOff k s3 with ⟨e4, s4⟩
  dsimp only
  rw [h2]
  dsimp only
  rw [h3]
  dsimp only
  rw [h4]
  dsimp only
  rcases e1 with _ | m1 <;> rcases e2 with _ | m2 <;> rcases e3 with _ | m3 <;>
    rcases e4 with _ | m4 <;> rfl

theorem combineErrs_none_iff (a b c d : Option String) :
    combineErrs [a, b, c, d] = none ↔
      a = none ∧ b = none ∧ c = none ∧ d = none := by
  rcases a with _ | m1 <;> rcases b with _ | m2 <;> rcases c with _ | m3 <;>
    rcases d with _ | m4 <;> simp [combineErrs]

theorem sendChars_ext (k : Sink) (bs : List Nat) (s : St) :
    ∃ t, (sendChars k bs s).2 = pushT s t := by
  induction bs generalizing s with
  | nil => exact ⟨[], (pushT_nil s).symm⟩
  | cons b rest ih =>
    unfold sendChars
    split
    case h_1 m s1 heq =>
      obtain ⟨t, _, hs, _⟩ := send_frame k b rs s
      rw [heq] at hs
      exact ⟨t, hs⟩
    case h_2 s1 heq =>
      have hs1 : s1 = pushT s (sendT b rs s.backLight) := by
        have h0 : (send k b rs s).1 = none := by rw [heq]
        have := send_ok h0
        rwa [heq] at this
      obtain ⟨t, ht⟩ := ih s1
      exact ⟨sendT b rs s.backLight ++ t,
        by rw [ht, hs1, pushT_pushT]⟩

theorem sendChars_ok {k : Sink} {bs : List Nat} {s : St}
    (h : (sendChars k bs s).1 = none) :
    (sendChars k bs s).2 = pushT s (dataT bs s.backLight) := by
  induction bs generalizing s with
  | nil =>
    show s = pushT s (dataT [] s.backLight)
    rw [dataT, pushT_nil]
  | cons b rest ih =>
    revert h
    unfold sendChars
    split
    case h_1 m s1 heq =>
      intro h
      simp at h
    case h_2 s1 heq =>
      intro h
      have hs1 : s1 = pushT s (sendT b rs s.backLight) := by
        have h0 : (send k b rs s).1 = none := by rw [heq]
        have := send_ok h0
        rwa [heq] at this
      rw [ih h, hs1, pushT_pushT, pushT_backLight]
      rfl

/-- The spec-side row base-address table (row 0 → 0x00, 1 → 0x40,
2 → 0x14, 3+ → 0x54). -/
def specRowBase : Nat → Nat
  | 0 => 0x00
  | 1 => 0x40
  | 2 => 0x14
  | _ => 0x54

theorem rowOffset_get : ∀ n < 4, rowOffset.get? n = some (specRowBase n) := by
  decide

theorem clamp_min (a b : Nat) : (if b < a then b else a) = min a b := by
  rcases Nat.lt_or_ge b a with h | h
  · rw [if_pos h, Nat.min_eq_right (Nat.le_of_lt h)]
  · rw [if_neg (Nat.not_lt.2 h), Nat.min_eq_left h]

theorem cres_fst_ne_crash (r : Option String × St) :
    (cres r).1 ≠ CResult.crash := by
  rcases r with ⟨_ | m, st⟩ <;> simp [cres]

theorem send_displCntrl (k : Sink) (v m : Nat) (s : St) :
    (send k v m s).2.displCntrl = s.displCntrl := by
  obtain ⟨t, _, hs, _⟩ := send_frame k v m s
  rw [hs, pushT_displCntrl]

/-! ## Concrete sinks and states used by witnesses -/

/-- A sink on which every bus write succeeds. -/
def kOk : Sink := fun _ => none

/-- A sink whose writes succeed up to index `n` and fail from there on. -/
def kFailFrom (n : Nat) : Sink :=
  fun i => if i < n then none else some "E"

theorem command_displCntrl (k : Sink) (v : Nat) (s : St) :
    (command k v s).2.displCntrl = s.displCntrl :=
  send_displCntrl k v 0 s

theorem command_frame (k : Sink) (v : Nat) (s : St) :
    ∃ t, PrefixOf t (sendT v 0 s.backLight) ∧ (command k v s).2 = pushT s t ∧
      ((command k v s).1 = none → t = sendT v 0 s.backLight) :=
  send_frame k v 0 s

/-- Driver state with the underline-cursor bit of DisplayControl already set
(as after a prior `UnderlineOn`). -/
def stUnderOn : St :=
  { displFn := 8, displCntrl := 0x0E, displMode := 6, cols := 16, rows := 2,
    backLight := 0, writeCount := 0, trace := [] }

/-- Driver state with the underline-cursor bit clear (the state right after
`Start` on a 16x2 display, with backlight on). -/
def stUnderOff : St :=
  { displFn := 8, displCntrl := 0x0C, displMode := 6, cols := 16, rows := 2,
    backLight := 8, writeCount := 0, trace := [] }

/-- An 8-byte custom character bitmap. -/
def charEx : CustomCharacter :=
  { CharMap := [0x0E, 0x11, 0x11, 0x1F, 0x11, 0x11, 0x11, 0x00], Register := 0 }

/-! ## Claims -/

/-- C1: for every 8-bit value and mode flag, `send` performs exactly two
nibble sends in order — first `(value &&& 0xF0) ||| mode`, then
`((value <<< 4) &&& 0xF0) ||| mode` — whose bus bytes (`sendT`, built from
two `w4T` blocks) each carry the current backlight bit; on success the trace
grows by exactly these six bytes and on any run by a prefix of them, so no
other nibble sends occur for that call. -/
theorem send_two_nibble_sends (k : Sink) (val mode : Nat) (s : St) :
    (∃ t, PrefixOf t (sendT val mode s.backLight) ∧
      (send k val mode s).2 = pushT s t) ∧
    ((send k val mode s).1 = none →
      (send k val mode s).2 = pushT s (sendT val mode s.backLight)) := by
  obtain ⟨t, hpre, hs, _⟩ := send_frame k val mode s
  exact ⟨⟨t, hpre, hs⟩, fun h => send_ok h⟩

/-- Witness for C1 at value 0xA5 in Data mode on a fresh 16x2 driver. -/
theorem send_two_nibble_sends_witness :
    (send kOk 0xA5 rs (NewLiquidCrystalLCD 16 2 DotSize5x8)).1 = none ∧
    (send kOk 0xA5 rs (NewLiquidCrystalLCD 16 2 DotSize5x8)).2 =
      pushT (NewLiquidCrystalLCD 16 2 DotSize5x8)
        (sendT 0xA5 rs (NewLiquidCrystalLCD 16 2 DotSize5x8).backLight) :=
  ⟨by decide, (send_two_nibble_sends kOk 0xA5 rs _).2 (by decide)⟩

/-- C2: every successful run of `Start`/`init` produces exactly the bus trace
`initT`, whose definition places the three `w4T 0x30` forcing nibble sends
before the single `w4T 0x20` mode-commit nibble send, which precedes the
FunctionSet command — the handshake is never reordered or shortened. -/
theorem start_handshake_order (k : Sink) (conn : Option String) (s : St)
    (h : (Start k conn s).1 = none) :
    (Start k conn s).2.trace = s.trace ++ initT s.displFn s.backLight := by
  rw [Start_ok h]
  rfl

/-- Witness for C2: a fully successful startup of a 16x2 driver. -/
theorem start_handshake_order_witness :
    (Start kOk none (NewLiquidCrystalLCD 16 2 DotSize5x8)).2.trace =
      (NewLiquidCrystalLCD 16 2 DotSize5x8).trace ++
        initT (NewLiquidCrystalLCD 16 2 DotSize5x8).displFn
          (NewLiquidCrystalLCD 16 2 DotSize5x8).backLight :=
  start_handshake_order kOk none _ (by decide)

/-- C9 counterexample: from a state whose DisplayControl already has the
underline bit set, `UnderlineOn` then `UnderlineOff` (both commands
succeeding) ends with DisplayControl 0x0C, not the original 0x0E — the pair
does not restore the byte for every driver state. -/
theorem underline_roundtrip_cex :
    (UnderlineOn kOk stUnderOn).1 = none ∧
    (UnderlineOff kOk (UnderlineOn kOk stUnderOn).2).1 = none ∧
    (UnderlineOff kOk (UnderlineOn kOk stUnderOn).2).2.displCntrl ≠
      stUnderOn.displCntrl := by
  decide

set_option maxRecDepth 8192 in
theorem byte_or_clear_cursorOn : ∀ c, c < 256 → c &&& lcdCursorOn = 0 →
    (c ||| lcdCursorOn) &&& bnot lcdCursorOn = c := by
  decide

/-- C9 (amended): for every driver state whose DisplayControl byte has the
underline-cursor bit clear, `UnderlineOn` then `UnderlineOff` (both commands
succeeding) restores the stored DisplayControl byte bit for bit. -/
theorem underline_roundtrip (k : Sink) (s : St)
    (hlt : s.displCntrl < 256) (hbit : s.displCntrl &&& lcdCursorOn = 0)
    (hok1 : (UnderlineOn k s).1 = none)
    (hok2 : (UnderlineOff k (UnderlineOn k s).2).1 = none) :
    (UnderlineOff k (UnderlineOn k s).2).2.displCntrl = s.displCntrl := by
  have key := byte_or_clear_cursorOn
  have e2 : ∀ (u : St), (UnderlineOff k u).2.displCntrl =
      u.displCntrl &&& bnot lcdCursorOn := by
    intro u
    unfold UnderlineOff
    dsimp only
    rw [command_displCntrl]
  have e1 : (UnderlineOn k s).2.displCntrl = s.displCntrl ||| lcdCursorOn := by
    unfold UnderlineOn
    dsimp only
    rw [command_displCntrl]
  rw [e2, e1]
  exact key s.displCntrl hlt hbit

/-- Witness for C9: the round trip at DisplayControl 0x0C. -/
theorem underline_roundtrip_witness :
    (UnderlineOff kOk (UnderlineOn kOk stUnderOff).2).2.displCntrl =
      stUnderOff.displCntrl :=
  underline_roundtrip kOk stUnderOff (by decide) (by decide) (by decide)
    (by decide)

/-- C10: `RegisterCharacter` masks the slot to 3 bits and, on success, has
sent exactly the SetCGRAMAddress command followed by the Data-mode sends of
the bitmap bytes (the Go `CharMap` field is an `[8]byte`, so eight of them)
and only then assigns the masked slot to the character; on any bus failure
the returned character is unchanged — in particular its `Register` field —
even though part of the trace may already have been written. -/
theorem registerCharacter_spec (k : Sink) (loc : Nat) (c : CustomCharacter)
    (s : St) :
    ((RegisterCharacter k loc c s).1 = none →
      (RegisterCharacter k loc c s).2.1 = { c with Register := loc &&& 0x7 } ∧
      (RegisterCharacter k loc c s).2.2 =
        pushT s (sendT (lcdSetCGramAddr ||| ((loc &&& 0x7) <<< 3)) 0
          s.backLight ++ dataT c.CharMap s.backLight)) ∧
    (∀ m, (RegisterCharacter k loc c s).1 = some m →
      (RegisterCharacter k loc c s).2.1 = c ∧
      ∃ t, (RegisterCharacter k loc c s).2.2 = pushT s t) := by
  unfold RegisterCharacter
  dsimp only
  split
  case h_1 m0 s1 heq =>
    constructor
    · intro h
      simp at h
    · intro m' _
      refine ⟨rfl, ?_⟩
      obtain ⟨t, _, hs, _⟩ := command_frame k (lcdSetCGramAddr |||
        ((loc &&& 0x7) <<< 3)) s
      rw [heq] at hs
      exact ⟨t, hs⟩
  case h_2 s1 heq =>
    have hs1 : s1 = pushT s (sendT (lcdSetCGramAddr ||| ((loc &&& 0x7) <<< 3))
        0 s.backLight) := by
      have h0 : (command k (lcdSetCGramAddr ||| ((loc &&& 0x7) <<< 3)) s).1
          = none := by rw [heq]
      have := command_ok h0
      rwa [heq] at this
    split
    case h_1 m0 s2 heq2 =>
      constructor
      · intro h
        simp at h
      · intro m' _
        refine ⟨rfl, ?_⟩
        obtain ⟨t, ht⟩ := sendChars_ext k c.CharMap s1
        rw [heq2] at ht
        exact ⟨sendT (lcdSetCGramAddr ||| ((loc &&& 0x7) <<< 3)) 0
          s.backLight ++ t, by rw [ht, hs1, pushT_pushT]⟩
    case h_2 s2 heq2 =>
      constructor
      · intro _
        refine ⟨rfl, ?_⟩
        have h0 : (sendChars k c.CharMap s1).1 = none := by rw [heq2]
        have hs2 := sendChars_ok h0
        rw [heq2] at hs2
        rw [hs2, hs1, pushT_pushT, pushT_backLight]
      · intro m' hm'
        simp at hm'

/-- Witness for C10: a successful registration of `charEx` at slot 9
(masked to 1). -/
theorem registerCharacter_spec_witness :
    (RegisterCharacter kOk 9 charEx (NewLiquidCrystalLCD 16 2 DotSize5x8)).2.1
      = { charEx with Register := 9 &&& 0x7 } :=
  ((registerCharacter_spec kOk 9 charEx
    (NewLiquidCrystalLCD 16 2 DotSize5x8)).1 (by decide)).1

theorem NewLCD_displFn (cols rows ds : Nat) :
    (NewLiquidCrystalLCD cols rows ds).displFn =
      (if 1 < rows then lcd2Line else 0) +
      (if rows = 1 ∧ ds ≠ DotSize5x8 then lcd5x10Dots else 0) := by
  unfold NewLiquidCrystalLCD
  dsimp only
  by_cases h1 : 1 < rows
  · have h2 : ¬(ds ≠ DotSize5x8 ∧ rows = 1) := by
      rintro ⟨-, hr⟩
      omega
    have h2' : ¬(rows = 1 ∧ ds ≠ DotSize5x8) := by
      rintro ⟨hr, -⟩
      omega
    rw [if_pos h1, if_neg h2, if_pos h1, if_neg h2']
    decide
  · by_cases h2 : ds ≠ DotSize5x8 ∧ rows = 1
    · rw [if_neg h1, if_pos h2, if_neg h1, if_pos ⟨h2.2, h2.1⟩]
      decide
    · rw [if_neg h1, if_neg h2, if_neg h1,
        if_neg (fun hc => h2 ⟨hc.2, hc.1⟩)]
      decide

/-- C4 counterexample: with a driver constructed for 5 rows, requesting
row 4 makes `SetCursor` hit the row-offset table out of bounds (a Go panic,
`CResult.crash` here) with no SetDDRAMAddress command written, so the claim
does not hold for every configured geometry. -/
theorem setCursor_clamp_cex :
    (SetCursor kOk 0 4 (NewLiquidCrystalLCD 1 5 DotSize5x8)).1 =
      CResult.crash ∧
    (SetCursor kOk 0 4 (NewLiquidCrystalLCD 1 5 DotSize5x8)).2.trace = [] := by
  decide

/-- C4 (amended): for every geometry with 1 ≤ rows ≤ 4 and 1 ≤ cols ≤ 255
(the byte-typed fields of the Go struct), `SetCursor` silently clamps row to
[0, rows-1] and column to [0, cols-1] and issues the SetDDRAMAddress command
at address `base[row] + column` (byte addition) with base the fixed table
{0x00, 0x40, 0x14, 0x54}; in particular with rows = 2 a requested row 5
behaves exactly like row 1. -/
theorem setCursor_clamp (k : Sink) (col row : Nat) (s : St)
    (hr1 : 1 ≤ s.rows) (hr4 : s.rows ≤ 4) (hc1 : 1 ≤ s.cols)
    (hc : s.cols < 256) :
    SetCursor k col row s =
      cres (command k (lcdSetDDRAMAddr |||
        ((min col (s.cols - 1) + specRowBase (min row (s.rows - 1))) % 256))
        s) ∧
    (s.rows = 2 → SetCursor k col 5 s = SetCursor k col 1 s) := by
  have main : ∀ r, SetCursor k col r s =
      cres (command k (lcdSetDDRAMAddr |||
        ((min col (s.cols - 1) + specRowBase (min r (s.rows - 1))) % 256))
        s) := by
    intro r
    unfold SetCursor
    dsimp only
    have hbr : bsub1 s.rows = s.rows - 1 := by
      unfold bsub1
      omega
    have hbc : bsub1 s.cols = s.cols - 1 := by
      unfold bsub1
      omega
    rw [hbr, hbc, clamp_min r (s.rows - 1), clamp_min col (s.cols - 1)]
    have hlt : min r (s.rows - 1) < 4 := by
      have := Nat.min_le_right r (s.rows - 1)
      omega
    rw [rowOffset_get _ hlt]
  refine ⟨main row, fun h2 => ?_⟩
  rw [main 5, main 1, h2]
  norm_num

/-- Witness for C4: a 16x2 driver with both coordinates out of range. -/
theorem setCursor_clamp_witness :
    SetCursor kOk 20 5 (NewLiquidCrystalLCD 16 2 DotSize5x8) =
      cres (command kOk (lcdSetDDRAMAddr |||
        ((min 20 ((NewLiquidCrystalLCD 16 2 DotSize5x8).cols - 1) +
          specRowBase (min 5 ((NewLiquidCrystalLCD 16 2 DotSize5x8).rows - 1)))
          % 256)) (NewLiquidCrystalLCD 16 2 DotSize5x8)) :=
  (setCursor_clamp kOk 20 5 _ (by decide) (by decide) (by decide)
    (by decide)).1

/-- C5: the row-offset table access of `SetCursor` is in bounds for every
driver constructed with 1 ≤ rows ≤ 4 and cols ≥ 1, whatever (column, row)
is requested; for every driver constructed with 5 ≤ rows ≤ 255, and for a
driver constructed with rows = 0 (where the byte clamp `rows-1` wraps to
255), some requested row makes the lookup out of bounds — a runtime panic
(`CResult.crash`) in the original code. -/
theorem setCursor_bounds_dichotomy :
    (∀ cols rows ds (k : Sink) col row, 1 ≤ rows → rows ≤ 4 → 1 ≤ cols →
      (SetCursor k col row (NewLiquidCrystalLCD cols rows ds)).1 ≠
        CResult.crash) ∧
    (∀ cols rows ds (k : Sink), 5 ≤ rows → rows ≤ 255 →
      ∃ row, row < 256 ∧ ∃ col,
        (SetCursor k col row (NewLiquidCrystalLCD cols rows ds)).1 =
          CResult.crash) ∧
    (∀ cols ds (k : Sink), ∃ row, row < 256 ∧ ∃ col,
      (SetCursor k col row (NewLiquidCrystalLCD cols 0 ds)).1 =
        CResult.crash) := by
  refine ⟨?_, ?_, ?_⟩
  · intro cols rows ds k col row h1 h4 hc
    unfold SetCursor
    dsimp only
    have hbr : bsub1 (NewLiquidCrystalLCD cols rows ds).rows = rows - 1 := by
      show bsub1 rows = rows - 1
      unfold bsub1
      omega
    rw [hbr]
    have hlt : (if rows - 1 < row then rows - 1 else row) < 4 := by
      split <;> omega
    rw [rowOffset_get _ hlt]
    exact cres_fst_ne_crash _
  · intro cols rows ds k h5 h255
    refine ⟨4, by omega, 0, ?_⟩
    unfold SetCursor
    dsimp only
    have hbr : bsub1 (NewLiquidCrystalLCD cols rows ds).rows = rows - 1 := by
      show bsub1 rows = rows - 1
      unfold bsub1
      omega
    rw [hbr, if_neg (by omega : ¬(rows - 1 < 4))]
    rfl
  · intro cols ds k
    refine ⟨4, by omega, 0, ?_⟩
    unfold SetCursor
    dsimp only
    have hbr : bsub1 (NewLiquidCrystalLCD cols 0 ds).rows = 255 := by
      show bsub1 0 = 255
      decide
    rw [hbr, if_neg (by omega : ¬(255 < 4))]
    rfl

/-- Witness for C5: the in-bounds half at a 16x2 driver with a huge row. -/
theorem setCursor_bounds_dichotomy_witness :
    (SetCursor kOk 3 200 (NewLiquidCrystalLCD 16 2 DotSize5x8)).1 ≠
      CResult.crash :=
  setCursor_bounds_dichotomy.1 16 2 DotSize5x8 kOk 3 200 (by decide)
    (by decide) (by decide)

/-- C6: the FunctionSet byte built at construction never carries the
8-bit-bus flag (the 4-bit-bus encoding of the HD44780 is precisely this flag
being clear), carries the two-line flag iff rows > 1, carries the 5x10-dot
flag iff rows = 1 and the requested dot size is not 5x8, and every
successful `Start` writes the FunctionSet command with exactly this byte
(the `sendT` block in its trace). -/
theorem functionSet_flags (cols rows ds : Nat) :
    ((NewLiquidCrystalLCD cols rows ds).displFn &&& lcd8BitMode = 0) ∧
    ((NewLiquidCrystalLCD cols rows ds).displFn &&& lcd2Line =
      if 1 < rows then lcd2Line else 0) ∧
    ((NewLiquidCrystalLCD cols rows ds).displFn &&& lcd5x10Dots =
      if rows = 1 ∧ ds ≠ DotSize5x8 then lcd5x10Dots else 0) ∧
    (∀ (k : Sink) (conn : Option String),
      (Start k conn (NewLiquidCrystalLCD cols rows ds)).1 = none →
      ∃ pre post, (Start k conn (NewLiquidCrystalLCD cols rows ds)).2.trace =
        pre ++ sendT (lcdFunctionSet |||
          (NewLiquidCrystalLCD cols rows ds).displFn) 0 lcdNoBacklight
          ++ post) := by
  have hfn := NewLCD_displFn cols rows ds
  have hcases : ∀ P : Nat → Prop,
      (1 < rows → P (lcd2Line + 0)) →
      ((rows = 1 ∧ ds ≠ DotSize5x8) → P (0 + lcd5x10Dots)) →
      (¬(1 < rows) → ¬(rows = 1 ∧ ds ≠ DotSize5x8) → P (0 + 0)) →
      P ((NewLiquidCrystalLCD cols rows ds).displFn) := by
    intro P hA hB hC
    rw [hfn]
    by_cases h1 : 1 < rows
    · have h2 : ¬(rows = 1 ∧ ds ≠ DotSize5x8) := by
        rintro ⟨hr, -⟩
        omega
      rw [if_pos h1, if_neg h2]
      exact hA h1
    · by_cases h2 : rows = 1 ∧ ds ≠ DotSize5x8
      · rw [if_neg h1, if_pos h2]
        exact hB h2
      · rw [if_neg h1, if_neg h2]
        exact hC h1 h2
  refine ⟨?_, ?_, ?_, ?_⟩
  · refine hcases (fun fn => fn &&& lcd8BitMode = 0) ?_ ?_ ?_ <;>
      intro <;> first | decide | (intro; decide)
  · refine hcases (fun fn => fn &&& lcd2Line = if 1 < rows then lcd2Line
      else 0) ?_ ?_ ?_
    · intro h1
      rw [if_pos h1]
      decide
    · rintro ⟨hr, -⟩
      rw [if_neg (by omega : ¬(1 < rows))]
      decide
    · intro h1 _
      rw [if_neg h1]
      decide
  · refine hcases (fun fn => fn &&& lcd5x10Dots =
      if rows = 1 ∧ ds ≠ DotSize5x8 then lcd5x10Dots else 0) ?_ ?_ ?_
    · intro h1
      rw [if_neg (by rintro ⟨hr, -⟩; omega : ¬(rows = 1 ∧ ds ≠ DotSize5x8))]
      decide
    · intro h2
      rw [if_pos h2]
      decide
    · intro _ h2
      rw [if_neg h2]
      decide
  · intro k conn h
    have htr : (Start k conn (NewLiquidCrystalLCD cols rows ds)).2.trace =
        (NewLiquidCrystalLCD cols rows ds).trace ++
          initT (NewLiquidCrystalLCD cols rows ds).displFn lcdNoBacklight := by
      rw [Start_ok h]
      rfl
    rw [htr]
    refine ⟨(NewLiquidCrystalLCD cols rows ds).trace ++
      ([lcdNoBacklight % 256] ++ w4T 0x30 lcdNoBacklight ++
        w4T 0x30 lcdNoBacklight ++ w4T 0x30 lcdNoBacklight ++
        w4T 0x20 lcdNoBacklight),
      sendT (lcdDisplayControl ||| (lcdDisplayOn ||| lcdCursorOff |||
        lcdBlinkOff ||| lcdDisplayOn)) 0 lcdNoBacklight ++
      sendT lcdClearDisplay 0 lcdNoBacklight ++
      sendT (lcdEntryModeSet ||| (lcdEntryLeft ||| lcdEntryShiftDecrement)) 0
        lcdNoBacklight ++
      sendT lcdReturnHome 0 lcdNoBacklight, ?_⟩
    simp [initT, List.append_assoc]

/-- Witness for C6: the FunctionSet block in a successful 16x2 startup. -/
theorem functionSet_flags_witness :
    ∃ pre post, (Start kOk none (NewLiquidCrystalLCD 16 2 DotSize5x8)).2.trace =
      pre ++ sendT (lcdFunctionSet |||
        (NewLiquidCrystalLCD 16 2 DotSize5x8).displFn) 0 lcdNoBacklight
        ++ post :=
  (functionSet_flags 16 2 DotSize5x8).2.2.2 kOk none (by decide)

theorem blWritesB_zero {s s' : St} (h : s'.backLight = lcdNoBacklight) :
    blWritesB s s' = true := by
  unfold blWritesB
  rw [h]
  refine List.all_eq_true.2 fun b _ => beq_iff_eq.2 ?_
  simp [lcdNoBacklight]

/-- C8: `Halt` attempts Clear, BacklightOff, CursorOff and DisplayOff in that
order whatever fails (its final state is the sequential composition of the
four steps), and returns the newline-join of every error encountered
(`combineErrs`), which is `none` exactly when all four steps succeed. -/
theorem halt_combines_errors (k : Sink) (s : St) :
    Halt k s =
      (combineErrs [(Clear k s).1, (BacklightOff k (Clear k s).2).1,
        (CursorOff k (BacklightOff k (Clear k s).2).2).1,
        (DisplayOff k (CursorOff k (BacklightOff k (Clear k s).2).2).2).1],
       (DisplayOff k (CursorOff k (BacklightOff k (Clear k s).2).2).2).2) ∧
    ((Halt k s).1 = none ↔
      (Clear k s).1 = none ∧ (BacklightOff k (Clear k s).2).1 = none ∧
      (CursorOff k (BacklightOff k (Clear k s).2).2).1 = none ∧
      (DisplayOff k (CursorOff k (BacklightOff k (Clear k s).2).2).2).1
        = none) := by
  refine ⟨Halt_eq k s, ?_⟩
  rw [Halt_eq]
  exact combineErrs_none_iff _ _ _ _

/-- C3: every byte any public operation hands to the I2C connection carries
the driver's backlight bit at the moment of the write (`blWritesB` checks
the bytes the operation appended against the operation's final backlight
state, which for every operation below is the backlight in force when its
writes happen), and the stored backlight bit is preserved by every operation
except `BacklightOn` and `BacklightOff` — `Halt` reaches backlight-off
precisely by running its explicit `BacklightOff` step, as its composition
equation shows. -/
theorem backlight_invariant :
    (∀ (k : Sink) (s : St), blWritesB s (Clear k s).2 = true ∧
      (Clear k s).2.backLight = s.backLight) ∧
    (∀ (k : Sink) (s : St), blWritesB s (Home k s).2 = true ∧
      (Home k s).2.backLight = s.backLight) ∧
    (∀ (k : Sink) (s : St), blWritesB s (DisplayOn k s).2 = true ∧
      (DisplayOn k s).2.backLight = s.backLight) ∧
    (∀ (k : Sink) (s : St), blWritesB s (DisplayOff k s).2 = true ∧
      (DisplayOff k s).2.backLight = s.backLight) ∧
    (∀ (k : Sink) (s : St), blWritesB s (UnderlineOn k s).2 = true ∧
      (UnderlineOn k s).2.backLight = s.backLight) ∧
    (∀ (k : Sink) (s : St), blWritesB s (UnderlineOff k s).2 = true ∧
      (UnderlineOff k s).2.backLight = s.backLight) ∧
    (∀ (k : Sink) (s : St), blWritesB s (CursorOn k s).2 = true ∧
      (CursorOn k s).2.backLight = s.backLight) ∧
    (∀ (k : Sink) (s : St), blWritesB s (CursorOff k s).2 = true ∧
      (CursorOff k s).2.backLight = s.backLight) ∧
    (∀ (k : Sink) (s : St), blWritesB s (ShiftDisplayLeft k s).2 = true ∧
      (ShiftDisplayLeft k s).2.backLight = s.backLight) ∧
    (∀ (k : Sink) (s : St), blWritesB s (ShiftDisplayRight k s).2 = true ∧
      (ShiftDisplayRight k s).2.backLight = s.backLight) ∧
    (∀ (k : Sink) (s : St), blWritesB s (PrintLeftToRight k s).2 = true ∧
      (PrintLeftToRight k s).2.backLight = s.backLight) ∧
    (∀ (k : Sink) (s : St), blWritesB s (PrintRightToLeft k s).2 = true ∧
      (PrintRightToLeft k s).2.backLight = s.backLight) ∧
    (∀ (k : Sink) (s : St), blWritesB s (AutoScrollOn k s).2 = true ∧
      (AutoScrollOn k s).2.backLight = s.backLight) ∧
    (∀ (k : Sink) (s : St), blWritesB s (AutoScrollOff k s).2 = true ∧
      (AutoScrollOff k s).2.backLight = s.backLight) ∧
    (∀ (k : Sink) (col row : Nat) (s : St),
      blWritesB s (SetCursor k col row s).2 = true ∧
      (SetCursor k col row s).2.backLight = s.backLight) ∧
    (∀ (k : Sink) (loc : Nat) (c : CustomCharacter) (s : St),
      blWritesB s (RegisterCharacter k loc c s).2.2 = true ∧
      (RegisterCharacter k loc c s).2.2.backLight = s.backLight) ∧
    (∀ (k : Sink) (str : List Nat) (s : St),
      blWritesB s (Write k str s).2 = true ∧
      (Write k str s).2.backLight = s.backLight) ∧
    (∀ (k : Sink) (conn : Option String) (s : St),
      blWritesB s (Start k conn s).2 = true ∧
      (Start k conn s).2.backLight = s.backLight) ∧
    (∀ (k : Sink) (s : St), blWritesB s (BacklightOn k s).2 = true ∧
      (BacklightOn k s).2.backLight = lcdBacklight) ∧
    (∀ (k : Sink) (s : St), blWritesB s (BacklightOff k s).2 = true ∧
      (BacklightOff k s).2.backLight = lcdNoBacklight) ∧
    (∀ (k : Sink) (s : St), blWritesB s (Halt k s).2 = true ∧
      (Halt k s).2 =
        (DisplayOff k (CursorOff k (BacklightOff k (Clear k s).2).2).2).2 ∧
      (Halt k s).2.backLight = lcdNoBacklight) := by
  refine ⟨fun k s => ⟨writesBL_blWritesB (Clear_keeps k s).1, (Clear_keeps k s).2⟩,
    fun k s => ⟨writesBL_blWritesB (Home_keeps k s).1, (Home_keeps k s).2⟩,
    fun k s => ⟨writesBL_blWritesB (DisplayOn_keeps k s).1,
      (DisplayOn_keeps k s).2⟩,
    fun k s => ⟨writesBL_blWritesB (DisplayOff_keeps k s).1,
      (DisplayOff_keeps k s).2⟩,
    fun k s => ⟨writesBL_blWritesB (UnderlineOn_keeps k s).1,
      (UnderlineOn_keeps k s).2⟩,
    fun k s => ⟨writesBL_blWritesB (UnderlineOff_keeps k s).1,
      (UnderlineOff_keeps k s).2⟩,
    fun k s => ⟨writesBL_blWritesB (CursorOn_keeps k s).1,
      (CursorOn_keeps k s).2⟩,
    fun k s => ⟨writesBL_blWritesB (CursorOff_keeps k s).1,
      (CursorOff_keeps k s).2⟩,
    fun k s => ⟨writesBL_blWritesB (ShiftDisplayLeft_keeps k s).1,
      (ShiftDisplayLeft_keeps k s).2⟩,
    fun k s => ⟨writesBL_blWritesB (ShiftDisplayRight_keeps k s).1,
      (ShiftDisplayRight_keeps k s).2⟩,
    fun k s => ⟨writesBL_blWritesB (PrintLeftToRight_keeps k s).1,
      (PrintLeftToRight_keeps k s).2⟩,
    fun k s => ⟨writesBL_blWritesB (PrintRightToLeft_keeps k s).1,
      (PrintRightToLeft_keeps k s).2⟩,
    fun k s => ⟨writesBL_blWritesB (AutoScrollOn_keeps k s).1,
      (AutoScrollOn_keeps k s).2⟩,
    fun k s => ⟨writesBL_blWritesB (AutoScrollOff_keeps k s).1,
      (AutoScrollOff_keeps k s).2⟩,
    fun k col row s => ⟨writesBL_blWritesB (SetCursor_keeps k col row s).1,
      (SetCursor_keeps k col row s).2⟩,
    fun k loc c s => ⟨writesBL_blWritesB (RegisterCharacter_keeps k loc c s).1,
      (RegisterCharacter_keeps k loc c s).2⟩,
    fun k str s => ⟨writesBL_blWritesB (Write_keeps k str s).1,
      (Write_keeps k str s).2⟩,
    fun k conn s => ⟨writesBL_blWritesB (Start_keeps k conn s).1,
      (Start_keeps k conn s).2⟩,
    fun k s => ⟨writesBL_blWritesB (BacklightOn_writes k s).1,
      (BacklightOn_writes k s).2⟩,
    fun k s => ⟨writesBL_blWritesB (BacklightOff_writes k s).1,
      (BacklightOff_writes k s).2⟩,
    fun k s => ?_⟩
  have hst : (Halt k s).2 =
      (DisplayOff k (CursorOff k (BacklightOff k (Clear k s).2).2).2).2 := by
    rw [Halt_eq]
  have hbl : (Halt k s).2.backLight = lcdNoBacklight := by
    rw [hst, (DisplayOff_keeps k _).2, (CursorOff_keeps k _).2,
      (BacklightOff_writes k _).2]
  exact ⟨blWritesB_zero hbl, hst, hbl⟩

/-- C7: `Write` performs one Data-mode send per input byte, in order.  Its
count never exceeds the input length; the error is `none` exactly when the
count is the full length, in which case the trace grew by precisely the
Data-mode sends of all bytes (`dataT`); and when an error is reported the
count N-1 is strictly below the length, the trace shows the first N-1 bytes
fully transmitted followed by a prefix of the failed N-th send, and nothing
after it. -/
theorem write_partial_semantics (k : Sink) (str : List Nat) (s : St) :
    (Write k str s).1.1 ≤ str.length ∧
    ((Write k str s).1.2 = none ↔ (Write k str s).1.1 = str.length) ∧
    ((Write k str s).1.2 = none →
      (Write k str s).2 = pushT s (dataT str s.backLight)) ∧
    (∀ m, (Write k str s).1.2 = some m →
      (Write k str s).1.1 < str.length ∧
      ∃ t, PrefixOf t (sendT (str.getD (Write k str s).1.1 0) rs s.backLight) ∧
        (Write k str s).2 =
          pushT s (dataT (str.take (Write k str s).1.1) s.backLight ++ t)) := by
  induction str generalizing s with
  | nil =>
    refine ⟨Nat.le_refl 0, by simp [Write], ?_, ?_⟩
    · intro _
      show s = pushT s (dataT [] s.backLight)
      rw [dataT, pushT_nil]
    · intro m hm
      simp [Write] at hm
  | cons b rest ih =>
    rcases hsend : send k b rs s with ⟨e1, s1⟩
    unfold Write
    rw [hsend]
    rcases e1 with _ | m0
    · have hs1 : s1 = pushT s (sendT b rs s.backLight) := by
        have h0 : (send k b rs s).1 = none := by rw [hsend]
        have := send_ok h0
        rwa [hsend] at this
      have hbl1 : s1.backLight = s.backLight := by
        rw [hs1]
        rfl
      obtain ⟨ihle, ihiff, ihok, ihfail⟩ := ih s1
      dsimp only
      rcases hW : Write k rest s1 with ⟨⟨n, e⟩, s2⟩
      rw [hW] at ihle ihiff ihok ihfail
      dsimp only at ihle ihiff ihok ihfail ⊢
      refine ⟨?_, ?_, ?_, ?_⟩
      · simp only [List.length_cons]
        omega
      · constructor
        · intro he
          have h' := ihiff.1 he
          simp only [List.length_cons]
          omega
        · intro hn
          refine ihiff.2 ?_
          simp only [List.length_cons] at hn
          omega
      · intro he
        rw [ihok he, hbl1, hs1, pushT_pushT]
        rfl
      · intro m hm
        obtain ⟨hlt, t, hpre, ht⟩ := ihfail m hm
        rw [hbl1] at hpre ht
        refine ⟨?_, t, ?_, ?_⟩
        · simp only [List.length_cons]
          omega
        · rw [List.getD_cons_succ]
          exact hpre
        · rw [ht, hs1, pushT_pushT, List.take_succ_cons]
          simp only [dataT, List.append_assoc]
    · obtain ⟨t, hpre, hs, _⟩ := send_frame k b rs s
      rw [hsend] at hs
      dsimp only at hs ⊢
      refine ⟨Nat.zero_le _, by simp, by intro h; simp at h, ?_⟩
      intro m hm
      refine ⟨by simp [List.length_cons], t, ?_, ?_⟩
      · rw [List.getD_cons_zero]
        exact hpre
      · rw [hs, List.take_zero]
        rw [show dataT [] s.backLight = ([] : List Nat) from rfl,
          List.nil_append]

/-- Witness for C7: a 3-byte write whose second send fails (the sink fails
from bus-write index 6 on), returning count 1 with the error. -/
theorem write_partial_semantics_witness :
    (Write (kFailFrom 6) [65, 66, 67]
      (NewLiquidCrystalLCD 16 2 DotSize5x8)).1.2 = some "E" ∧
    (Write (kFailFrom 6) [65, 66, 67]
      (NewLiquidCrystalLCD 16 2 DotSize5x8)).1.1 < 3 :=
  ⟨by decide,
    ((write_partial_semantics (kFailFrom 6) [65, 66, 67]
      (NewLiquidCrystalLCD 16 2 DotSize5x8)).2.2.2 "E" (by decide)).1⟩

end GobotLCD





